import Mathlib

/-!
Shallow embedding of the iroha signature-set and block modules
(src/crypto/src/signature/mod.rs, src/data_model/src/block.rs,
src/crates/iroha/src/secrecy.rs), with theorems settling the frozen
claims about them.

Modelling conventions: byte strings and opaque digests are modelled as
natural numbers (or lists of naturals for token streams); the external
SCALE codec, the external hash primitive and the external signature
engine (which the spec lists as external collaborators) are modelled
from the spec as concrete executable functions; the BTreeSet of
signature wrappers is modelled as a list strictly sorted by public key,
with the exact Rust std insertion semantics.
-/

namespace Iroha

/-- A raw signature: public key plus opaque signature payload bytes,
mirroring struct Signature in src/crypto/src/signature/mod.rs.
Key material and byte payloads are modelled as naturals. -/
structure Signature where
  public_key : Nat
  payload : Nat
  deriving DecidableEq, Repr

/-- Modelled from the spec: the external signature engine of section 4.1.
Signing binds the key and the signed message into the signature payload;
verification checks that binding. The pairing stands for the opaque
cryptographic computation. -/
def engineSign (privKey msg : Nat) : Nat :=
  Nat.pair privKey msg

/-- Modelled from the spec: engine verification (section 4.1); succeeds
exactly when the signature payload was produced by signing the message
under the key, otherwise yields a cryptographic error string. -/
def engineVerify (pubKey msg sigPayload : Nat) : Except String Unit :=
  if sigPayload = Nat.pair pubKey msg then Except.ok ()
  else Except.error "signature verification failed"

/-- Boolean form of signature verification against a message hash. -/
def verifyB (s : Signature) (msg : Nat) : Bool :=
  s.payload == Nat.pair s.public_key msg

/-- Rust BTreeSet::insert on SignatureWrapperOf elements (wrapper equality
and order are by public key only): when an element with an equal key is
already present, the set is left unchanged (the entry is NOT updated);
otherwise the new element is placed at its ordered position.
This models SignaturesOf::insert (signature/mod.rs lines 466-469). -/
def btreeInsert (s : Signature) : List Signature → List Signature
  | [] => [s]
  | x :: xs =>
    if s.public_key < x.public_key then s :: x :: xs
    else if s.public_key = x.public_key then x :: xs
    else x :: btreeInsert s xs

/-- Rust BTreeSet bulk construction (collect / FromIterator) keeps, for
each public key, the LAST element of the input with that key, placed in
key order: modelled as replacing insertion. -/
def btreeInsertReplace (s : Signature) : List Signature → List Signature
  | [] => [s]
  | x :: xs =>
    if s.public_key < x.public_key then s :: x :: xs
    else if s.public_key = x.public_key then s :: xs
    else x :: btreeInsertReplace s xs

/-- impl FromIterator for SignaturesOf (signature/mod.rs lines 456-462):
collect the incoming signatures into the backing BTreeSet, which
retains the last occurrence of each public key. -/
def sigsFromIter (l : List Signature) : List Signature :=
  l.foldl (fun acc s => btreeInsertReplace s acc) []

/-- SignaturesOf::len (signature/mod.rs lines 480-482). -/
def sigsLen (sigs : List Signature) : Nat :=
  sigs.length

/-- SignaturesOf::is_subset (signature/mod.rs lines 500-502):
BTreeSet::is_subset over wrapper elements, whose equality compares only
the public key. -/
def sigsIsSubset (a b : List Signature) : Bool :=
  a.all (fun s => b.any (fun t => s.public_key == t.public_key))

/-- SignatureVerificationFail (signature/mod.rs lines 527-532): the
failing signature together with the underlying error rendered to text. -/
structure SignatureVerificationFail where
  signature : Signature
  reason : String
  deriving DecidableEq, Repr

/-- SignaturesOf::verify_hash (signature/mod.rs lines 488-497):
try_for_each over the set in ascending public-key order; the first
verification failure aborts with that signature and the error text. -/
def sigsVerifyHash (sigs : List Signature) (msg : Nat) :
    Except SignatureVerificationFail Unit :=
  match sigs with
  | [] => Except.ok ()
  | s :: rest =>
    match engineVerify s.public_key msg s.payload with
    | Except.ok () => sigsVerifyHash rest msg
    | Except.error e => Except.error ⟨s, e⟩

instance {ε α : Type} [DecidableEq ε] [DecidableEq α] : DecidableEq (Except ε α) :=
  fun x y =>
    match x, y with
    | Except.error a, Except.error b => decidable_of_iff (a = b) (by simp)
    | Except.ok a, Except.ok b => decidable_of_iff (a = b) (by simp)
    | Except.error _, Except.ok _ => isFalse fun hc => by cases hc
    | Except.ok _, Except.error _ => isFalse fun hc => by cases hc

/-- Representation invariant of the backing BTreeSet: the element list is
strictly sorted by public key. -/
def SigsWf (sigs : List Signature) : Prop :=
  List.Pairwise (fun a b => a.public_key < b.public_key) sigs

instance (sigs : List Signature) : Decidable (SigsWf sigs) :=
  List.instDecidablePairwise sigs

/-- Block header, mirroring BlockHeader in src/data_model/src/block.rs
(u64 fields as naturals, hashes as opaque naturals, peer identities of
the commit topology as opaque naturals). -/
structure BlockHeader where
  height : Nat
  timestamp_ms : Nat
  previous_block_hash : Option Nat
  transactions_hash : Option Nat
  commit_topology : List Nat
  view_change_index : Nat
  consensus_estimation_ms : Nat
  deriving DecidableEq, Repr

/-- Block payload, mirroring BlockPayload in src/data_model/src/block.rs.
TransactionValue and Event are outside the given sources and are
modelled as opaque naturals. -/
structure BlockPayload where
  header : BlockHeader
  transactions : List Nat
  event_recommendations : List Nat
  deriving DecidableEq, Repr

/-- Signed block, mirroring SignedBlock in src/data_model/src/block.rs:
the deduplicating signature set over the payload, plus the payload. -/
structure SignedBlock where
  signatures : List Signature
  payload : BlockPayload
  deriving DecidableEq, Repr

/-- Decoded-but-unvalidated candidate, mirroring SignedBlockCandidate in
src/data_model/src/block.rs (same two fields, same order). -/
structure SignedBlockCandidate where
  signatures : List Signature
  payload : BlockPayload
  deriving DecidableEq, Repr

/-- Modelled from the spec: the typed hash of a TransactionValue
(TransactionValue::hash is outside the given sources); an opaque
deterministic digest of the transaction. -/
def txHash (t : Nat) : Nat :=
  Nat.pair 1 t

/-- One pairwise-hashing pass of the Merkle reduction. -/
def merkleLevel : List Nat → List Nat
  | a :: b :: rest => Nat.pair a b :: merkleLevel rest
  | l => l

/-- Merkle reduction driver; the fuel is an upper bound on the number of
passes (each pass at least halves a list of length two or more). -/
def merkleReduce : Nat → List Nat → Option Nat
  | _, [] => none
  | _, [a] => some a
  | 0, _ :: _ :: _ => none
  | fuel + 1, l => merkleReduce fuel (merkleLevel l)

/-- Modelled from the spec: MerkleTree::hash over an ordered sequence of
transaction hashes (the MerkleTree type is outside the given sources):
pairwise hashing down to a single root, none for an empty sequence. -/
def merkleRoot (hashes : List Nat) : Option Nat :=
  merkleReduce hashes.length hashes

/-- Modelled from the spec: the external binary codec (section 6) for a
fixed-width integer field; one token of the stream. -/
def encNat (n : Nat) : List Nat := [n]

/-- Modelled from the spec: decoding one integer token. -/
def decNat : List Nat → Except String (Nat × List Nat)
  | [] => Except.error "not enough data"
  | t :: rest => Except.ok (t, rest)

/-- Modelled from the spec: the codec for an optional hash field, a tag
token followed by the value when present. -/
def encOptNat : Option Nat → List Nat
  | none => [0]
  | some n => [1, n]

/-- Modelled from the spec: decoding an optional hash field. -/
def decOptNat : List Nat → Except String (Option Nat × List Nat)
  | 0 :: rest => Except.ok (none, rest)
  | 1 :: rest =>
    match decNat rest with
    | Except.ok (n, r) => Except.ok (some n, r)
    | Except.error e => Except.error e
  | _ => Except.error "bad option tag"

/-- Modelled from the spec: the codec for a sequence of scalar items, a
length token followed by the items. -/
def encListNat (l : List Nat) : List Nat := l.length :: l

/-- Decoding a known number of scalar tokens. -/
def decTokens : Nat → List Nat → Except String (List Nat × List Nat)
  | 0, rest => Except.ok ([], rest)
  | _ + 1, [] => Except.error "not enough data"
  | n + 1, t :: rest =>
    match decTokens n rest with
    | Except.ok (l, r) => Except.ok (t :: l, r)
    | Except.error e => Except.error e

/-- Modelled from the spec: decoding a sequence of scalar items. -/
def decListNat (bytes : List Nat) : Except String (List Nat × List Nat) :=
  match decNat bytes with
  | Except.ok (n, r) => decTokens n r
  | Except.error e => Except.error e

/-- Modelled from the spec: the codec for one Signature value (public key
then signature payload). -/
def encSig (s : Signature) : List Nat := [s.public_key, s.payload]

/-- Modelled from the spec: decoding one Signature value. -/
def decSig : List Nat → Except String (Signature × List Nat)
  | pk :: pl :: rest => Except.ok (⟨pk, pl⟩, rest)
  | _ => Except.error "not enough data"

/-- Decoding a known number of Signature values. -/
def decSigList : Nat → List Nat → Except String (List Signature × List Nat)
  | 0, rest => Except.ok ([], rest)
  | n + 1, bytes =>
    match decSig bytes with
    | Except.ok (s, r) =>
      match decSigList n r with
      | Except.ok (l, r2) => Except.ok (s :: l, r2)
      | Except.error e => Except.error e
    | Except.error e => Except.error e

/-- Encoding of SignaturesOf: the backing BTreeSet encodes as its length
followed by its elements in ascending key order. -/
def encSigs (sigs : List Signature) : List Nat :=
  sigs.length :: sigs.flatMap encSig

/-- Decoding of SignaturesOf: read the announced number of signatures and
collect them into the backing BTreeSet (deduplicating by public key,
last occurrence kept), as the derived Decode on the set type does. -/
def decSigs (bytes : List Nat) : Except String (List Signature × List Nat) :=
  match decNat bytes with
  | Except.ok (n, r) =>
    match decSigList n r with
    | Except.ok (l, r2) => Except.ok (sigsFromIter l, r2)
    | Except.error e => Except.error e
  | Except.error e => Except.error e

/-- Encoding of BlockHeader: its seven fields in declaration order. -/
def encHeader (h : BlockHeader) : List Nat :=
  encNat h.height ++ encNat h.timestamp_ms ++ encOptNat h.previous_block_hash ++
    encOptNat h.transactions_hash ++ encListNat h.commit_topology ++
    encNat h.view_change_index ++ encNat h.consensus_estimation_ms

/-- Decoding of BlockHeader. -/
def decHeader (bytes : List Nat) : Except String (BlockHeader × List Nat) :=
  match decNat bytes with
  | Except.error e => Except.error e
  | Except.ok (height, r1) =>
    match decNat r1 with
    | Except.error e => Except.error e
    | Except.ok (ts, r2) =>
      match decOptNat r2 with
      | Except.error e => Except.error e
      | Except.ok (pbh, r3) =>
        match decOptNat r3 with
        | Except.error e => Except.error e
        | Except.ok (th, r4) =>
          match decListNat r4 with
          | Except.error e => Except.error e
          | Except.ok (topo, r5) =>
            match decNat r5 with
            | Except.error e => Except.error e
            | Except.ok (vci, r6) =>
              match decNat r6 with
              | Except.error e => Except.error e
              | Except.ok (cem, r7) =>
                Except.ok (⟨height, ts, pbh, th, topo, vci, cem⟩, r7)

/-- Encoding of BlockPayload: header, transactions, event
recommendations, in declaration order. -/
def encPayload (p : BlockPayload) : List Nat :=
  encHeader p.header ++ encListNat p.transactions ++
    encListNat p.event_recommendations

/-- Decoding of BlockPayload. -/
def decPayload (bytes : List Nat) : Except String (BlockPayload × List Nat) :=
  match decHeader bytes with
  | Except.error e => Except.error e
  | Except.ok (h, r1) =>
    match decListNat r1 with
    | Except.error e => Except.error e
    | Except.ok (txs, r2) =>
      match decListNat r2 with
      | Except.error e => Except.error e
      | Except.ok (evs, r3) => Except.ok (⟨h, txs, evs⟩, r3)

/-- Derived Encode of SignedBlock (block.rs lines 90-115): signatures
then payload, in field declaration order. -/
def encodeSignedBlock (b : SignedBlock) : List Nat :=
  encSigs b.signatures ++ encPayload b.payload

/-- Structural decode of SignedBlockCandidate (block.rs lines 265-269):
signatures then payload, in field declaration order; trailing input is
left unconsumed as with the derived Decode. -/
def decodeCandidate (bytes : List Nat) :
    Except String (SignedBlockCandidate × List Nat) :=
  match decSigs bytes with
  | Except.error e => Except.error e
  | Except.ok (sigs, r1) =>
    match decPayload r1 with
    | Except.error e => Except.error e
    | Except.ok (p, r2) => Except.ok (⟨sigs, p⟩, r2)

/-- Modelled from the spec: Hash::of for a BlockPayload (the external
typed-hash primitive of section 6): a deterministic digest of the
payload's serialized form. -/
def hashPayload (p : BlockPayload) : Nat :=
  (encPayload p).foldl Nat.pair 0

/-- SignedBlockCandidate::validate_signatures (block.rs lines 309-313):
verify the whole set against the payload, mapping any failure to the
static message. -/
def SignedBlockCandidate.validate_signatures (c : SignedBlockCandidate) :
    Except String Unit :=
  match sigsVerifyHash c.signatures (hashPayload c.payload) with
  | Except.ok () => Except.ok ()
  | Except.error _ => Except.error "Transaction contains invalid signatures"

/-- SignedBlockCandidate::validate_header (block.rs lines 289-306):
recompute the Merkle root of the transaction hashes and compare it with
the stored header field (the braces of the source's message are literal
text, the source does not interpolate them). -/
def SignedBlockCandidate.validate_header (c : SignedBlockCandidate) :
    Except String Unit :=
  if merkleRoot (c.payload.transactions.map txHash) ≠
      c.payload.header.transactions_hash then
    Except.error "Transactions\x27 hash incorrect. Expected: \x7bexpected_txs_hash:?\x7d, actual: \x7bactual_txs_hash:?\x7d"
  else Except.ok ()

/-- SignedBlockCandidate::validate (block.rs lines 272-286): signature
check, then header check, then the emptiness check, short-circuiting;
on success the candidate's fields become the SignedBlock. -/
def SignedBlockCandidate.validate (c : SignedBlockCandidate) :
    Except String SignedBlock :=
  match c.validate_signatures with
  | Except.error e => Except.error e
  | Except.ok () =>
    match c.validate_header with
    | Except.error e => Except.error e
    | Except.ok () =>
      if c.payload.transactions.isEmpty then Except.error "Block is empty"
      else Except.ok ⟨c.signatures, c.payload⟩

/-- impl Decode for SignedBlock (block.rs lines 316-322): structurally
decode the candidate, then validate it. -/
def decodeSignedBlock (bytes : List Nat) : Except String SignedBlock :=
  match decodeCandidate bytes with
  | Except.error e => Except.error e
  | Except.ok (c, _) => c.validate

/-- VersionedSignedBlock::add_signature (block.rs lines 223-233): verify
the incoming signature against the current payload, then insert it into
the block's signature set. -/
def SignedBlock.add_signature (b : SignedBlock) (s : Signature) :
    Except String SignedBlock :=
  match engineVerify s.public_key (hashPayload b.payload) s.payload with
  | Except.ok () => Except.ok ⟨btreeInsert s b.signatures, b.payload⟩
  | Except.error e => Except.error e

/-- Loop body of VersionedSignedBlock::replace_signatures: add each
incoming signature in turn, returning false at the first failure. -/
def replaceSignaturesGo (b : SignedBlock) : List Signature → SignedBlock × Bool
  | [] => (b, true)
  | s :: rest =>
    match b.add_signature s with
    | Except.ok b2 => replaceSignaturesGo b2 rest
    | Except.error _ => (b, false)

/-- VersionedSignedBlock::replace_signatures (block.rs lines 238-257):
the block's signature set is first reset to the empty set, then each
incoming signature is added (with verification against the current
payload), stopping with false at the first failure. -/
def SignedBlock.replace_signatures (b : SignedBlock) (sigs : List Signature) :
    SignedBlock × Bool :=
  replaceSignaturesGo ⟨[], b.payload⟩ sigs

/-- Sequential composition of comparisons, as the derived Rust Ord
chains the fields. -/
def ordThen (a b : Ordering) : Ordering :=
  match a with
  | Ordering.eq => b
  | o => o

/-- Rust Ord for Option (None is less than Some). -/
def optNatCmp : Option Nat → Option Nat → Ordering
  | none, none => Ordering.eq
  | none, some _ => Ordering.lt
  | some _, none => Ordering.gt
  | some a, some b => compare a b

/-- Rust Ord for Vec: lexicographic, a strict prefix is less. -/
def listNatCmp : List Nat → List Nat → Ordering
  | [], [] => Ordering.eq
  | [], _ :: _ => Ordering.lt
  | _ :: _, [] => Ordering.gt
  | x :: xs, y :: ys => ordThen (compare x y) (listNatCmp xs ys)

/-- Derived PartialEq of BlockHeader: all seven fields compared. -/
def headerBeq (a b : BlockHeader) : Bool :=
  a.height == b.height && a.timestamp_ms == b.timestamp_ms &&
    a.previous_block_hash == b.previous_block_hash &&
    a.transactions_hash == b.transactions_hash &&
    a.commit_topology == b.commit_topology &&
    a.view_change_index == b.view_change_index &&
    a.consensus_estimation_ms == b.consensus_estimation_ms

/-- Derived Ord of BlockHeader: lexicographic over the seven fields in
declaration order. -/
def headerCmp (a b : BlockHeader) : Ordering :=
  ordThen (compare a.height b.height) <|
    ordThen (compare a.timestamp_ms b.timestamp_ms) <|
      ordThen (optNatCmp a.previous_block_hash b.previous_block_hash) <|
        ordThen (optNatCmp a.transactions_hash b.transactions_hash) <|
          ordThen (listNatCmp a.commit_topology b.commit_topology) <|
            ordThen (compare a.view_change_index b.view_change_index)
              (compare a.consensus_estimation_ms b.consensus_estimation_ms)

/-- impl PartialEq for BlockPayload (block.rs lines 124-128): the
headers alone are compared. -/
def payloadBeq (p q : BlockPayload) : Bool :=
  headerBeq p.header q.header

/-- impl Ord for BlockPayload (block.rs lines 134-138): the headers
alone are compared. -/
def payloadCmp (p q : BlockPayload) : Ordering :=
  headerCmp p.header q.header

/-- SecretString (src/crates/iroha/src/secrecy.rs): a wrapped secret. -/
structure SecretString where
  secret : String
  deriving DecidableEq, Repr

/-- SecretString::expose_secret: the only accessor to the wrapped
secret. -/
def SecretString.expose_secret (s : SecretString) : String :=
  s.secret

/-- The fixed replacement text of secrecy.rs. -/
def redactedText : String := "[REDACTED]"

/-- impl Serialize for SecretString (secrecy.rs lines 20-24): the text
handed to the serializer, which is the constant REDACTED, never the
wrapped secret. -/
def SecretString.serializeOutput (_ : SecretString) : String :=
  redactedText

/-- impl Debug for SecretString (secrecy.rs lines 26-30): the text
handed to the formatter, which is the constant REDACTED, never the
wrapped secret. -/
def SecretString.debugOutput (_ : SecretString) : String :=
  redactedText

/-- Demo payload with one transaction whose stored transactions hash
matches the recomputed Merkle root. -/
def demoPayload : BlockPayload :=
  ⟨⟨1, 0, none, some (txHash 0), [], 0, 0⟩, [0], []⟩

/-- Demo payload with no transactions and no stored transactions hash. -/
def demoEmptyPayload : BlockPayload :=
  ⟨⟨1, 0, none, none, [], 0, 0⟩, [], []⟩

/-- A signature over the given payload produced by the engine under
key 3; it verifies against that payload's hash. -/
def demoGoodSig (p : BlockPayload) : Signature :=
  ⟨3, engineSign 3 (hashPayload p)⟩

/-- A signature that verifies against no message: its payload 0 is never
the engine's signing output for key 4. -/
def demoBadSig : Signature := ⟨4, 0⟩

/-- A fully valid signed block over the demo payload. -/
def demoBlock : SignedBlock := ⟨[demoGoodSig demoPayload], demoPayload⟩

/-- An accepted block holding one valid signature, used to observe what
a failed signature replacement leaves behind. -/
def demoStaleBlock : SignedBlock :=
  ⟨[demoGoodSig demoEmptyPayload], demoEmptyPayload⟩

/-- A candidate with non-empty transactions, a matching Merkle root, and
one non-verifying signature. -/
def demoBadCandidate : SignedBlockCandidate := ⟨[demoBadSig], demoPayload⟩

/-- A candidate with empty transactions AND a non-verifying signature. -/
def demoEmptyCandidate : SignedBlockCandidate := ⟨[demoBadSig], demoEmptyPayload⟩

/-- A candidate with empty transactions whose (empty) signature set
verifies and whose stored transactions hash is absent. -/
def demoEmptyOkCandidate : SignedBlockCandidate := ⟨[], demoEmptyPayload⟩

theorem engineVerify_ok_iff (s : Signature) (msg : Nat) :
    engineVerify s.public_key msg s.payload = Except.ok () ↔ verifyB s msg = true := by
  simp [engineVerify, verifyB]

theorem sigsVerifyHash_ok_iff (sigs : List Signature) (msg : Nat) :
    sigsVerifyHash sigs msg = Except.ok () ↔ ∀ s ∈ sigs, verifyB s msg = true := by
  induction sigs with
  | nil => simp [sigsVerifyHash]
  | cons s rest ih =>
    by_cases hs : verifyB s msg = true
    · have : engineVerify s.public_key msg s.payload = Except.ok () :=
        (engineVerify_ok_iff s msg).mpr hs
      simp [sigsVerifyHash, this, ih, hs]
    · have : engineVerify s.public_key msg s.payload =
          Except.error "signature verification failed" := by
        simp only [verifyB, beq_iff_eq] at hs
        simp [engineVerify, hs]
      simp [sigsVerifyHash, this, hs]

theorem sigsVerifyHash_error_first (sigs : List Signature) (msg : Nat)
    (e : SignatureVerificationFail)
    (h : sigsVerifyHash sigs msg = Except.error e) :
    ∃ pre post, sigs = pre ++ e.signature :: post ∧
      (∀ t ∈ pre, verifyB t msg = true) ∧
      verifyB e.signature msg = false ∧
      e.reason = "signature verification failed" := by
  induction sigs with
  | nil => simp [sigsVerifyHash] at h
  | cons s rest ih =>
    by_cases hs : verifyB s msg = true
    · have hok : engineVerify s.public_key msg s.payload = Except.ok () :=
        (engineVerify_ok_iff s msg).mpr hs
      simp only [sigsVerifyHash, hok] at h
      obtain ⟨pre, post, hsplit, hpre, hbad, hreason⟩ := ih h
      exact ⟨s :: pre, post, by simp [hsplit], by
        intro t ht
        rcases List.mem_cons.mp ht with h1 | h2
        · exact h1 ▸ hs
        · exact hpre t h2, hbad, hreason⟩
    · have herr : engineVerify s.public_key msg s.payload =
          Except.error "signature verification failed" := by
        simp only [verifyB, beq_iff_eq] at hs
        simp [engineVerify, hs]
      simp only [sigsVerifyHash, herr] at h
      refine ⟨[], rest, ?_, by simp, ?_, ?_⟩
      · cases h; simp
      · cases h; simpa using hs
      · cases h; rfl

theorem btreeInsertReplace_all_lt (s : Signature) (acc : List Signature)
    (h : ∀ x ∈ acc, x.public_key < s.public_key) :
    btreeInsertReplace s acc = acc ++ [s] := by
  induction acc with
  | nil => rfl
  | cons x xs ih =>
    have hx : x.public_key < s.public_key := h x (by simp)
    have h1 : ¬ s.public_key < x.public_key := by omega
    have h2 : ¬ s.public_key = x.public_key := by omega
    simp [btreeInsertReplace, h1, h2, ih fun y hy => h y (by simp [hy])]

theorem sigsFromIter_go_sorted (l acc : List Signature)
    (h : List.Pairwise (fun a b => a.public_key < b.public_key) (acc ++ l)) :
    List.foldl (fun acc s => btreeInsertReplace s acc) acc l = acc ++ l := by
  induction l generalizing acc with
  | nil => simp
  | cons y ys ih =>
    have hlt : ∀ x ∈ acc, x.public_key < y.public_key := by
      intro x hx
      exact (List.pairwise_append.mp h).2.2 x hx y (by simp)
    have hstep : btreeInsertReplace y acc = acc ++ [y] :=
      btreeInsertReplace_all_lt y acc hlt
    have hre : acc ++ y :: ys = (acc ++ [y]) ++ ys := by simp
    calc List.foldl (fun acc s => btreeInsertReplace s acc) acc (y :: ys)
        = List.foldl (fun acc s => btreeInsertReplace s acc) (acc ++ [y]) ys := by
          simp [hstep]
      _ = (acc ++ [y]) ++ ys := ih (acc ++ [y]) (hre ▸ h)
      _ = acc ++ y :: ys := by simp

/-- Collecting an already strictly key-sorted signature list reproduces it. -/
theorem sigsFromIter_sorted (l : List Signature) (h : SigsWf l) :
    sigsFromIter l = l := by
  simpa using sigsFromIter_go_sorted l [] (by simpa [SigsWf] using h)

theorem decNat_round (n : Nat) (rest : List Nat) :
    decNat (encNat n ++ rest) = Except.ok (n, rest) := rfl

theorem decOptNat_round (o : Option Nat) (rest : List Nat) :
    decOptNat (encOptNat o ++ rest) = Except.ok (o, rest) := by
  cases o <;> rfl

theorem decTokens_round (l rest : List Nat) :
    decTokens l.length (l ++ rest) = Except.ok (l, rest) := by
  induction l with
  | nil => rfl
  | cons t ts ih => simp [decTokens, ih]

theorem decListNat_round (l rest : List Nat) :
    decListNat (encListNat l ++ rest) = Except.ok (l, rest) := by
  simp [decListNat, encListNat, decNat, decTokens_round]

theorem decSigList_round (l : List Signature) (rest : List Nat) :
    decSigList l.length (l.flatMap encSig ++ rest) = Except.ok (l, rest) := by
  induction l with
  | nil => rfl
  | cons s t ih => simp [decSigList, encSig, decSig, ih]

theorem decSigs_round (l : List Signature) (rest : List Nat) (h : SigsWf l) :
    decSigs (encSigs l ++ rest) = Except.ok (l, rest) := by
  simp [decSigs, encSigs, decNat, decSigList_round, sigsFromIter_sorted l h]

theorem decHeader_round (h : BlockHeader) (rest : List Nat) :
    decHeader (encHeader h ++ rest) = Except.ok (h, rest) := by
  cases h with
  | mk ht ts pbh th topo vci cem =>
    simp [encHeader, encNat, decHeader, decNat, decOptNat_round, decListNat_round,
      List.append_assoc]

theorem decPayload_round (p : BlockPayload) (rest : List Nat) :
    decPayload (encPayload p ++ rest) = Except.ok (p, rest) := by
  cases p with
  | mk h txs evs =>
    simp [encPayload, decPayload, decHeader_round, decListNat_round, List.append_assoc]

theorem decodeCandidate_round (b : SignedBlock) (h : SigsWf b.signatures) :
    decodeCandidate (encodeSignedBlock b) =
      Except.ok (⟨b.signatures, b.payload⟩, []) := by
  have h2 : decPayload (encPayload b.payload) = Except.ok (b.payload, []) := by
    simpa using decPayload_round b.payload []
  simp [decodeCandidate, encodeSignedBlock,
    decSigs_round b.signatures (encPayload b.payload) h, h2]

theorem validate_ok_iff (c : SignedBlockCandidate) (blk : SignedBlock) :
    c.validate = Except.ok blk ↔
      ((∀ s ∈ c.signatures, verifyB s (hashPayload c.payload) = true) ∧
        merkleRoot (c.payload.transactions.map txHash) =
          c.payload.header.transactions_hash ∧
        c.payload.transactions ≠ [] ∧
        blk = ⟨c.signatures, c.payload⟩) := by
  rcases hsv : sigsVerifyHash c.signatures (hashPayload c.payload) with e | u
  · constructor
    · intro hval
      exfalso
      simp [SignedBlockCandidate.validate, SignedBlockCandidate.validate_signatures,
        hsv] at hval
    · rintro ⟨hall, -, -, -⟩
      rw [(sigsVerifyHash_ok_iff c.signatures (hashPayload c.payload)).mpr hall] at hsv
      cases hsv
  · cases u
    have hall : ∀ s ∈ c.signatures, verifyB s (hashPayload c.payload) = true :=
      (sigsVerifyHash_ok_iff c.signatures (hashPayload c.payload)).mp hsv
    by_cases hm : merkleRoot (c.payload.transactions.map txHash) =
        c.payload.header.transactions_hash
    · by_cases he : c.payload.transactions = []
      · have hm2 : merkleRoot [] = c.payload.header.transactions_hash := by
          rw [he] at hm
          simpa using hm
        simp [SignedBlockCandidate.validate, SignedBlockCandidate.validate_signatures,
          SignedBlockCandidate.validate_header, hsv, hm2, he]
      · have hne : c.payload.transactions.isEmpty = false := by
          simpa [List.isEmpty_iff] using he
        have hres : c.validate = Except.ok ⟨c.signatures, c.payload⟩ := by
          simp [SignedBlockCandidate.validate, SignedBlockCandidate.validate_signatures,
            SignedBlockCandidate.validate_header, hsv, hm, hne]
        rw [hres]
        simp [hm, he]
        constructor
        · intro h1
          exact ⟨hall, h1.symm⟩
        · intro h1
          exact h1.2.symm
    · simp [SignedBlockCandidate.validate, SignedBlockCandidate.validate_signatures,
        SignedBlockCandidate.validate_header, hsv, hm]

theorem replaceSignaturesGo_spec (sigs acc : List Signature) (p : BlockPayload) :
    replaceSignaturesGo ⟨acc, p⟩ sigs =
      (⟨List.foldl (fun a s => btreeInsert s a) acc
          (sigs.takeWhile fun s => verifyB s (hashPayload p)), p⟩,
        sigs.all fun s => verifyB s (hashPayload p)) := by
  induction sigs generalizing acc with
  | nil => rfl
  | cons s rest ih =>
    by_cases hs : verifyB s (hashPayload p) = true
    · have hok : engineVerify s.public_key (hashPayload p) s.payload = Except.ok () :=
        (engineVerify_ok_iff s (hashPayload p)).mpr hs
      simp [replaceSignaturesGo, SignedBlock.add_signature, hok, ih, hs]
    · have herr : engineVerify s.public_key (hashPayload p) s.payload =
          Except.error "signature verification failed" := by
        simp only [verifyB, beq_iff_eq] at hs
        simp [engineVerify, hs]
      simp [replaceSignaturesGo, SignedBlock.add_signature, herr, hs]

theorem headerBeq_iff (a b : BlockHeader) : headerBeq a b = true ↔ a = b := by
  cases a
  cases b
  simp [headerBeq, BlockHeader.mk.injEq, and_assoc]

/-- Claim C1 (code bug): evaluated at the failing input, SignaturesOf
keeps the FIRST signature when a second signature with the same public
key is inserted, because BTreeSet::insert does not update an existing
equal element; the set length is 1 as claimed, but the retained
signature is not the last one inserted (bulk collection, by contrast,
does keep the last). This contradicts the claim and the insert method's
own documentation. -/
theorem c1_insert_not_last_write_wins :
    btreeInsert ⟨5, 2⟩ (btreeInsert ⟨5, 1⟩ []) = [⟨5, 1⟩] ∧
      sigsLen (btreeInsert ⟨5, 2⟩ (btreeInsert ⟨5, 1⟩ [])) = 1 ∧
      sigsFromIter [⟨5, 1⟩, ⟨5, 2⟩] = [⟨5, 2⟩] ∧
      (⟨5, 1⟩ : Signature) ≠ ⟨5, 2⟩ := by
  refine ⟨rfl, rfl, rfl, by decide⟩

/-- Claim C2 counterexample: calling replace_signatures with one
non-verifying incoming signature returns false, yet the block's
previously existing signature set is destroyed rather than left
untouched — the operation is not atomic all-or-nothing. -/
theorem c2_replace_not_atomic :
    (demoStaleBlock.replace_signatures [demoBadSig]).2 = false ∧
      (demoStaleBlock.replace_signatures [demoBadSig]).1.signatures ≠
        demoStaleBlock.signatures := by
  constructor
  · decide
  · decide

/-- Claim C2 amended: replace_signatures first resets the block's
signature set to empty, then re-validates each incoming signature
against the current payload and inserts it; it returns true exactly
when all incoming signatures verify (full replacement), and on the
first failure it stops and returns false with the block keeping only
the incoming signatures accepted so far — the previous signatures are
lost, not restored. The payload is never altered. -/
theorem c2_replace_signatures_spec (b : SignedBlock) (sigs : List Signature) :
    b.replace_signatures sigs =
      (⟨List.foldl (fun a s => btreeInsert s a) []
          (sigs.takeWhile fun s => verifyB s (hashPayload b.payload)), b.payload⟩,
        sigs.all fun s => verifyB s (hashPayload b.payload)) :=
  replaceSignaturesGo_spec sigs [] b.payload

/-- Claim C3: decoding bytes into a SignedBlock succeeds exactly when
the structural decode of the signatures-and-payload candidate succeeds,
the transactions are non-empty, the recomputed Merkle root equals the
stored header field (both absent counting as equal), and every
signature verifies against the payload's hash; the accepted block
carries exactly the decoded signatures and payload. -/
theorem c3_decode_ok_iff (bytes : List Nat) (blk : SignedBlock) :
    decodeSignedBlock bytes = Except.ok blk ↔
      ∃ c rest, decodeCandidate bytes = Except.ok (c, rest) ∧
        c.payload.transactions ≠ [] ∧
        merkleRoot (c.payload.transactions.map txHash) =
          c.payload.header.transactions_hash ∧
        (∀ s ∈ c.signatures, verifyB s (hashPayload c.payload) = true) ∧
        blk = ⟨c.signatures, c.payload⟩ := by
  rcases hdc : decodeCandidate bytes with e | p
  · simp [decodeSignedBlock, hdc]
  · rcases p with ⟨c, rest⟩
    constructor
    · intro h
      have hv : c.validate = Except.ok blk := by
        simpa [decodeSignedBlock, hdc] using h
      obtain ⟨hall, hm, hne, hblk⟩ := (validate_ok_iff c blk).mp hv
      exact ⟨c, rest, rfl, hne, hm, hall, hblk⟩
    · rintro ⟨c2, r2, heq, hne, hm, hall, hblk⟩
      simp only [hdc, Except.ok.injEq, Prod.mk.injEq] at heq
      obtain ⟨hc, -⟩ := heq
      subst hc
      simpa [decodeSignedBlock, hdc] using
        (validate_ok_iff _ blk).mpr ⟨hall, hm, hne, hblk⟩

/-- Claim C4 counterexample: is_subset ignores signature payloads — the
singleton set for key 5 with payload 1 is a subset of the set holding
key 5 with the different payload 2, so mutating the payload in B for a
key present in A does not falsify A.is_subset(B). -/
theorem c4_subset_ignores_payload :
    sigsIsSubset [⟨5, 1⟩] [⟨5, 2⟩] = true ∧
      Signature.payload ⟨5, 1⟩ ≠ Signature.payload ⟨5, 2⟩ := by
  decide

/-- Claim C4 amended: A.is_subset(B) holds iff every public key of A
appears in B; the signature payload plays no role, because the set's
wrapper elements compare by public key alone. In particular equal
key-and-payload containment still implies subset, but payload mutation
in B cannot falsify it. -/
theorem c4_is_subset_iff_keys (a b : List Signature) :
    sigsIsSubset a b = true ↔
      ∀ s ∈ a, ∃ t ∈ b, s.public_key = t.public_key := by
  simp [sigsIsSubset, List.all_eq_true, List.any_eq_true]

/-- Claim C5: for a valid signed block (strictly key-sorted signature
set, validator accepts it), encoding then decoding returns the original
block; decoding never fails on bytes the system itself produced from a
valid block. -/
theorem c5_encode_decode_roundtrip (b : SignedBlock)
    (hwf : SigsWf b.signatures)
    (hv : SignedBlockCandidate.validate ⟨b.signatures, b.payload⟩ = Except.ok b) :
    decodeSignedBlock (encodeSignedBlock b) = Except.ok b := by
  simp [decodeSignedBlock, decodeCandidate_round b hwf, hv]

/-- Claim C5 witness: the concrete demo block is valid and round-trips. -/
theorem c5_roundtrip_witness :
    SigsWf demoBlock.signatures ∧
      SignedBlockCandidate.validate ⟨demoBlock.signatures, demoBlock.payload⟩ =
        Except.ok demoBlock ∧
      decodeSignedBlock (encodeSignedBlock demoBlock) = Except.ok demoBlock :=
  ⟨by decide, by decide,
    c5_encode_decode_roundtrip demoBlock (by decide) (by decide)⟩

/-- Claim C6 counterexample: a candidate with non-empty transactions, a
matching Merkle root and one non-verifying signature is rejected with
the reason "Transaction contains invalid signatures", which is not the
claimed "Block contains invalid signatures." -/
theorem c6_reason_differs :
    demoBadCandidate.validate =
        Except.error "Transaction contains invalid signatures" ∧
      "Transaction contains invalid signatures" ≠
        "Block contains invalid signatures." := by
  constructor
  · decide
  · decide

/-- Claim C6 amended: a structurally decoded candidate with non-empty
transactions and a matching Merkle root in which at least one signature
fails verification against the payload hash is rejected with the reason
"Transaction contains invalid signatures". -/
theorem c6_invalid_signature_rejected (c : SignedBlockCandidate)
    (_hne : c.payload.transactions ≠ [])
    (_hm : merkleRoot (c.payload.transactions.map txHash) =
      c.payload.header.transactions_hash)
    (hbad : ∃ s ∈ c.signatures, verifyB s (hashPayload c.payload) = false) :
    c.validate = Except.error "Transaction contains invalid signatures" := by
  rcases hsv : sigsVerifyHash c.signatures (hashPayload c.payload) with e | u
  · simp [SignedBlockCandidate.validate, SignedBlockCandidate.validate_signatures, hsv]
  · exfalso
    obtain ⟨s, hs, hsf⟩ := hbad
    cases u
    have := (sigsVerifyHash_ok_iff c.signatures (hashPayload c.payload)).mp hsv s hs
    simp [this] at hsf

/-- Claim C6 witness: the amended rejection at the concrete candidate. -/
theorem c6_invalid_signature_witness :
    demoBadCandidate.payload.transactions ≠ [] ∧
      merkleRoot (demoBadCandidate.payload.transactions.map txHash) =
        demoBadCandidate.payload.header.transactions_hash ∧
      demoBadCandidate.validate =
        Except.error "Transaction contains invalid signatures" :=
  ⟨by decide, by decide,
    c6_invalid_signature_rejected demoBadCandidate (by decide) (by decide)
      ⟨demoBadSig, by decide, by decide⟩⟩

/-- Claim C7 counterexample: the validator does not run the emptiness
check before signature verification — a candidate with empty
transactions and one invalid signature is rejected with the signature
reason, not with "Block is empty". -/
theorem c7_order_counterexample :
    demoEmptyCandidate.payload.transactions = [] ∧
      demoEmptyCandidate.validate =
        Except.error "Transaction contains invalid signatures" ∧
      demoEmptyCandidate.validate ≠ Except.error "Block is empty" := by
  refine ⟨rfl, by decide, by decide⟩

/-- Claim C7 amended: the validator checks signatures first, then the
Merkle root, then emptiness, short-circuiting on the first failure; a
structurally decodable candidate with empty transactions is rejected
with "Block is empty" provided its signatures all verify and its stored
transactions hash is absent (matching the absent recomputed root) —
regardless of the other header fields. -/
theorem c7_empty_rejected (c : SignedBlockCandidate)
    (hsig : ∀ s ∈ c.signatures, verifyB s (hashPayload c.payload) = true)
    (hth : c.payload.header.transactions_hash = none)
    (he : c.payload.transactions = []) :
    c.validate = Except.error "Block is empty" := by
  have hsv : sigsVerifyHash c.signatures (hashPayload c.payload) = Except.ok () :=
    (sigsVerifyHash_ok_iff c.signatures (hashPayload c.payload)).mpr hsig
  have hm : merkleRoot (c.payload.transactions.map txHash) =
      c.payload.header.transactions_hash := by
    simp [he, hth, merkleRoot, merkleReduce]
  have hie : c.payload.transactions.isEmpty = true := by simp [he]
  simp [SignedBlockCandidate.validate, SignedBlockCandidate.validate_signatures,
    SignedBlockCandidate.validate_header, hsv, hm, hie]

/-- Claim C7 witness: the amended rejection at the concrete empty
candidate whose signatures verify. -/
theorem c7_empty_rejected_witness :
    (∀ s ∈ demoEmptyOkCandidate.signatures,
        verifyB s (hashPayload demoEmptyOkCandidate.payload) = true) ∧
      demoEmptyOkCandidate.payload.header.transactions_hash = none ∧
      demoEmptyOkCandidate.payload.transactions = [] ∧
      demoEmptyOkCandidate.validate = Except.error "Block is empty" :=
  ⟨by decide, rfl, rfl,
    c7_empty_rejected demoEmptyOkCandidate (by decide) rfl rfl⟩

/-- Claim C8: batch verification succeeds iff every member verifies; on
failure it fails fast at the first non-verifying signature in ascending
public-key order (all earlier members verify, and no failing member has
a smaller key), surfacing that signature and the engine's error text as
the reason. -/
theorem c8_verify_hash_spec (sigs : List Signature) (msg : Nat)
    (hwf : SigsWf sigs) :
    (sigsVerifyHash sigs msg = Except.ok () ↔
        ∀ s ∈ sigs, verifyB s msg = true) ∧
      ∀ e, sigsVerifyHash sigs msg = Except.error e →
        e.signature ∈ sigs ∧ verifyB e.signature msg = false ∧
          e.reason = "signature verification failed" ∧
          ∀ t ∈ sigs, verifyB t msg = false →
            e.signature.public_key ≤ t.public_key := by
  refine ⟨sigsVerifyHash_ok_iff sigs msg, ?_⟩
  intro e he
  obtain ⟨pre, post, hsplit, hpre, hbad, hreason⟩ :=
    sigsVerifyHash_error_first sigs msg e he
  subst hsplit
  refine ⟨by simp, hbad, hreason, ?_⟩
  intro t ht htf
  rcases List.mem_append.mp ht with hp | hc
  · exact absurd (hpre t hp) (by simp [htf])
  · rcases List.mem_cons.mp hc with rfl | hpost
    · exact le_refl _
    · have hps := (List.pairwise_append.mp hwf).2.1
      exact le_of_lt ((List.pairwise_cons.mp hps).1 t hpost)

/-- Claim C8 witness: the spec applied at a concrete sorted set whose
single member fails verification. -/
theorem c8_verify_hash_witness :
    SigsWf [demoBadSig] ∧
      ((sigsVerifyHash [demoBadSig] 0 = Except.ok () ↔
          ∀ s ∈ [demoBadSig], verifyB s 0 = true) ∧
        ∀ e, sigsVerifyHash [demoBadSig] 0 = Except.error e →
          e.signature ∈ [demoBadSig] ∧ verifyB e.signature 0 = false ∧
            e.reason = "signature verification failed" ∧
            ∀ t ∈ [demoBadSig], verifyB t 0 = false →
              e.signature.public_key ≤ t.public_key) :=
  ⟨by decide, c8_verify_hash_spec [demoBadSig] 0 (by decide)⟩

/-- Claim C9: payload equality holds iff the headers are equal (all
seven header fields), payload ordering is exactly header ordering, and
neither depends on the transactions or event recommendations. -/
theorem c9_payload_eq_ord_by_header (h1 h2 : BlockHeader)
    (t1 e1 t2 e2 t3 e3 t4 e4 : List Nat) :
    (payloadBeq ⟨h1, t1, e1⟩ ⟨h2, t2, e2⟩ = true ↔ h1 = h2) ∧
      payloadCmp ⟨h1, t1, e1⟩ ⟨h2, t2, e2⟩ = headerCmp h1 h2 ∧
      payloadBeq ⟨h1, t1, e1⟩ ⟨h2, t2, e2⟩ = payloadBeq ⟨h1, t3, e3⟩ ⟨h2, t4, e4⟩ ∧
      payloadCmp ⟨h1, t1, e1⟩ ⟨h2, t2, e2⟩ = payloadCmp ⟨h1, t3, e3⟩ ⟨h2, t4, e4⟩ :=
  ⟨headerBeq_iff h1 h2, rfl, rfl, rfl⟩

/-- Claim C10: serialization and debug formatting of a SecretString both
produce exactly the redaction literal, independent of the wrapped
secret (any two secrets give identical outputs), and the secret is
returned only by the expose_secret accessor. -/
theorem c10_secret_string_redacted (s1 s2 : SecretString)
    (_hne : s1.secret ≠ s2.secret) :
    s1.serializeOutput = "[REDACTED]" ∧ s1.debugOutput = "[REDACTED]" ∧
      s1.serializeOutput = s2.serializeOutput ∧
      s1.debugOutput = s2.debugOutput ∧
      s1.expose_secret = s1.secret ∧ s2.expose_secret = s2.secret :=
  ⟨rfl, rfl, rfl, rfl, rfl, rfl⟩

/-- Claim C10 witness: two concrete distinct secrets. -/
theorem c10_secret_string_witness :
    (SecretString.mk "alpha").secret ≠ (SecretString.mk "beta").secret ∧
      ((SecretString.mk "alpha").serializeOutput = "[REDACTED]" ∧
        (SecretString.mk "alpha").debugOutput = "[REDACTED]" ∧
        (SecretString.mk "alpha").serializeOutput =
          (SecretString.mk "beta").serializeOutput ∧
        (SecretString.mk "alpha").debugOutput =
          (SecretString.mk "beta").debugOutput ∧
        (SecretString.mk "alpha").expose_secret = (SecretString.mk "alpha").secret ∧
        (SecretString.mk "beta").expose_secret = (SecretString.mk "beta").secret) :=
  ⟨by decide, c10_secret_string_redacted (SecretString.mk "alpha")
    (SecretString.mk "beta") (by decide)⟩

end Iroha
